import Mathlib

/-!
Shallow embedding of the C event system (`event.c` / `event.h`): a bounded
circular event queue, per-type subscriber tables, a flat observer table, and
the publish/process/dispatch engine.

Machine integers are modelled as `Nat` with explicit reductions (`% 2^16` for
`uint16_t` parameters, `% 2^8` for `uint8_t`, `% 2^32` for the timestamp) at
the points where the C code receives or stores them.  C function pointers and
`void*` context pointers are modelled as `Nat` handles, `0` standing for
`NULL` (the only operation the code performs on them is equality and the NULL
test).  Each `return -1;` site of the C code is labelled with the error kind
of the corresponding check, mirroring the spec's error taxonomy; `return 0`
success is `Except.ok ()`.

Callbacks can run arbitrary code in C; here a handler's behaviour is an
environment mapping the callback handle (given the context argument and the
event) to the list of bus registry operations it performs during its
invocation.  This covers pure handlers (empty list, like the demo program's
print-only handlers) and handlers that subscribe/unsubscribe/register/
unregister during dispatch, which is what the dispatch-semantics claims are
about.  Such handlers never touch the queue, so `EVENT_Process`'s drain loop
runs exactly `count` iterations, which is the fuel given to it.
-/

namespace EventSys

/-- `EVENT_MAX_COUNT` from event.h: number of event types. -/
def EVENT_MAX_COUNT : Nat := 32

/-- `EVENT_SUBSCRIBER_MAX` from event.h: subscriber slots per type. -/
def EVENT_SUBSCRIBER_MAX : Nat := 8

/-- `EVENT_OBSERVER_MAX` from event.h: global observer slots. -/
def EVENT_OBSERVER_MAX : Nat := 4

/-- `EVENT_QUEUE_SIZE` from event.h: queue capacity. -/
def EVENT_QUEUE_SIZE : Nat := 64

/-- `EVENT_DATA_SIZE_MAX` from event.h: payload size ceiling in bytes. -/
def EVENT_DATA_SIZE_MAX : Nat := 32

/-- `Event_t` from event.h.  `data` always has length `EVENT_DATA_SIZE_MAX`
(the C struct's inline array), zero-padded past `data_size`. -/
structure Event_t where
  type : Nat
  priority : Nat
  timestamp : Nat
  data_size : Nat
  data : List Nat
deriving Repr, DecidableEq

/-- The all-zero `Event_t` (what `memset` leaves in an untouched queue slot). -/
def zeroEvent : Event_t :=
  { type := 0, priority := 0, timestamp := 0, data_size := 0
    data := List.replicate EVENT_DATA_SIZE_MAX 0 }

/-- `EventQueue_t` from event.c: fixed storage plus head/tail/count. -/
structure EventQueue_t where
  queue : List Event_t
  head : Nat
  tail : Nat
  count : Nat
deriving Repr, DecidableEq

/-- `queue_init` / the zeroed `g_queue`: empty queue with zeroed storage. -/
def queue_init : EventQueue_t :=
  { queue := List.replicate EVENT_QUEUE_SIZE zeroEvent
    head := 0, tail := 0, count := 0 }

/-- `queue_push`: fails (C returns -1) when full, otherwise copies the record
into `tail`, advances `tail` mod capacity and increments `count`. -/
def queue_push (e : Event_t) (q : EventQueue_t) : Option EventQueue_t :=
  if EVENT_QUEUE_SIZE ≤ q.count then none
  else some { queue := q.queue.set q.tail e
              head := q.head
              tail := (q.tail + 1) % EVENT_QUEUE_SIZE
              count := q.count + 1 }

/-- `queue_pop`: returns NULL (`none`) when empty, otherwise the record at
`head`, advancing `head` mod capacity and decrementing `count`. -/
def queue_pop (q : EventQueue_t) : Option (Event_t × EventQueue_t) :=
  if q.count = 0 then none
  else some (q.queue.getD q.head zeroEvent,
             { q with head := (q.head + 1) % EVENT_QUEUE_SIZE
                      count := q.count - 1 })

/-- `queue_is_empty`. -/
def queue_is_empty (q : EventQueue_t) : Bool := q.count = 0

/-- `queue_get_count`. -/
def queue_get_count (q : EventQueue_t) : Nat := q.count

/-- `Subscriber_t` from event.c: callback handle, context handle, used flag. -/
structure Subscriber_t where
  callback : Nat
  arg : Nat
  used : Bool
deriving Repr, DecidableEq

/-- `Observer_t` from event.c (structurally identical to `Subscriber_t`). -/
structure Observer_t where
  callback : Nat
  arg : Nat
  used : Bool
deriving Repr, DecidableEq

/-- A zeroed subscriber slot. -/
def zeroSub : Subscriber_t := { callback := 0, arg := 0, used := false }

/-- A zeroed observer slot. -/
def zeroObs : Observer_t := { callback := 0, arg := 0, used := false }

/-- The whole mutable state of event.c: `g_queue`, `g_subscribers`
(`EVENT_MAX_COUNT` rows of `EVENT_SUBSCRIBER_MAX` slots), `g_observers`
(`EVENT_OBSERVER_MAX` slots) and `g_initialized`. -/
structure BusState where
  queue : EventQueue_t
  subscribers : List (List Subscriber_t)
  observers : List Observer_t
  initialized : Bool
deriving Repr, DecidableEq

/-- The error kinds of the spec's taxonomy.  The C code returns `-1` at every
error site; each constructor labels one such return site by the check that
fired there. -/
inductive EventErr where
  | notInitialized
  | invalidType
  | nullCallback
  | subscribersFull
  | observersFull
  | notFound
  | payloadTooLarge
  | queueFull
deriving Repr, DecidableEq

/-- Result of the C functions returning `int` (0 or -1): success or a labelled
error, paired with the post-state. -/
abbrev OpResult := Except EventErr Unit × BusState

instance : DecidableEq (Except EventErr Unit) := fun a b =>
  match a, b with
  | .ok (), .ok () => isTrue rfl
  | .ok (), .error _ => isFalse (fun h => Except.noConfusion h)
  | .error _, .ok () => isFalse (fun h => Except.noConfusion h)
  | .error e, .error f =>
    if h : e = f then isTrue (by rw [h]) else isFalse (fun hh => h (by cases hh; rfl))

/-- First index of the scan `for (i = 0; i < n; i++) if (p(slot[i])) ...`:
the C registry scans, mirrored on the slot list. -/
def scanIdx {α : Type} (p : α → Bool) : List α → Option Nat
  | [] => none
  | x :: xs => if p x then some 0 else (scanIdx p xs).map (· + 1)

/-- `EVENT_Init`: reset queue and both tables, set `g_initialized`, return 0. -/
def EVENT_Init (_s : BusState) : OpResult :=
  (.ok (), { queue := queue_init
             subscribers := List.replicate EVENT_MAX_COUNT
               (List.replicate EVENT_SUBSCRIBER_MAX zeroSub)
             observers := List.replicate EVENT_OBSERVER_MAX zeroObs
             initialized := true })

/-- `EVENT_Subscribe`: guard (`!g_initialized || type >= EVENT_MAX_COUNT ||
callback == NULL`, short-circuit order), then first-fit scan of the type's
row for an unused slot. -/
def EVENT_Subscribe (type cb arg : Nat) (s : BusState) : OpResult :=
  let t := type % 2 ^ 16
  if !s.initialized then (.error .notInitialized, s)
  else if EVENT_MAX_COUNT ≤ t then (.error .invalidType, s)
  else if cb = 0 then (.error .nullCallback, s)
  else
    let row := s.subscribers.getD t []
    match scanIdx (fun sl => !sl.used) row with
    | none => (.error .subscribersFull, s)
    | some i =>
      (.ok (), { s with subscribers :=
        s.subscribers.set t (row.set i { callback := cb, arg := arg, used := true }) })

/-- `EVENT_Unsubscribe`: same guard, then scan for the first used slot whose
(callback, arg) pair matches; clear only its `used` flag. -/
def EVENT_Unsubscribe (type cb arg : Nat) (s : BusState) : OpResult :=
  let t := type % 2 ^ 16
  if !s.initialized then (.error .notInitialized, s)
  else if EVENT_MAX_COUNT ≤ t then (.error .invalidType, s)
  else if cb = 0 then (.error .nullCallback, s)
  else
    let row := s.subscribers.getD t []
    match scanIdx (fun sl => sl.used && sl.callback == cb && sl.arg == arg) row with
    | none => (.error .notFound, s)
    | some i =>
      let old := row.getD i zeroSub
      (.ok (), { s with subscribers :=
        s.subscribers.set t (row.set i { old with used := false }) })

/-- The `Event_t` that `EVENT_Publish` constructs: zeroed record, then type,
priority, timestamp and — only when a payload pointer is supplied and the
size is positive — `data_size` and the verbatim byte copy. -/
def mkEvent (type prio : Nat) (data : Option (List Nat)) (data_size now : Nat) :
    Event_t :=
  let ds := data_size % 2 ^ 8
  let copied : List Nat :=
    match data with
    | none => []
    | some b => if 0 < ds then (b.map (· % 2 ^ 8)).take ds else []
  { type := type % 2 ^ 16
    priority := prio % 2 ^ 8
    timestamp := now % 2 ^ 32
    data_size := if data.isSome && decide (0 < ds) then ds else 0
    data := copied ++ List.replicate (EVENT_DATA_SIZE_MAX - copied.length) 0 }

/-- `EVENT_Publish`: guards in C order (`!g_initialized || type >= MAX` then
`data && data_size > EVENT_DATA_SIZE_MAX`), then build the record and push it;
a full queue drops the event and fails. `now` is the opaque clock sample
(`get_time_ms`). -/
def EVENT_Publish (type prio : Nat) (data : Option (List Nat))
    (data_size now : Nat) (s : BusState) : OpResult :=
  let t := type % 2 ^ 16
  let ds := data_size % 2 ^ 8
  if !s.initialized then (.error .notInitialized, s)
  else if EVENT_MAX_COUNT ≤ t then (.error .invalidType, s)
  else if data.isSome && decide (EVENT_DATA_SIZE_MAX < ds) then
    (.error .payloadTooLarge, s)
  else
    match queue_push (mkEvent type prio data data_size now) s.queue with
    | none => (.error .queueFull, s)
    | some q' => (.ok (), { s with queue := q' })

/-- `EVENT_RegisterObserver`: guard, then first-fit scan of the flat table. -/
def EVENT_RegisterObserver (cb arg : Nat) (s : BusState) : OpResult :=
  if !s.initialized then (.error .notInitialized, s)
  else if cb = 0 then (.error .nullCallback, s)
  else
    match scanIdx (fun ob => !ob.used) s.observers with
    | none => (.error .observersFull, s)
    | some i =>
      (.ok (), { s with
        observers := s.observers.set i
          ({ callback := cb, arg := arg, used := true } : Observer_t) })

/-- `EVENT_UnregisterObserver`: matches by callback only (no context). -/
def EVENT_UnregisterObserver (cb : Nat) (s : BusState) : OpResult :=
  if !s.initialized then (.error .notInitialized, s)
  else if cb = 0 then (.error .nullCallback, s)
  else
    match scanIdx (fun ob => ob.used && ob.callback == cb) s.observers with
    | none => (.error .notFound, s)
    | some i =>
      let old := s.observers.getD i zeroObs
      (.ok (), { s with observers := s.observers.set i ({ old with used := false }) })

/-- `EVENT_ClearQueue`: reinitializes the queue only — note the C code does
not check `g_initialized` here. -/
def EVENT_ClearQueue (s : BusState) : OpResult :=
  (.ok (), { s with queue := queue_init })

/-- `EVENT_GetCount`: pure observer of the queue occupancy. -/
def EVENT_GetCount (s : BusState) : Nat := queue_get_count s.queue

/-- One registry operation a handler may perform while it runs. -/
inductive BusAction where
  | subscribe (type cb arg : Nat)
  | unsubscribe (type cb arg : Nat)
  | regObserver (cb arg : Nat)
  | unregObserver (cb : Nat)
deriving Repr, DecidableEq

/-- Apply one handler action to the bus state (the action's result code is
discarded — the C handlers that ignore return values). -/
def applyAction (a : BusAction) (s : BusState) : BusState :=
  match a with
  | .subscribe t cb arg => (EVENT_Subscribe t cb arg s).2
  | .unsubscribe t cb arg => (EVENT_Unsubscribe t cb arg s).2
  | .regObserver cb arg => (EVENT_RegisterObserver cb arg s).2
  | .unregObserver cb => (EVENT_UnregisterObserver cb s).2

/-- A handler environment: what the callback with a given handle does when
invoked with a given context and event. -/
def Env : Type := Nat → Nat → Event_t → List BusAction

/-- The environment of handlers that perform no bus operations (the demo
program's print-only handlers). -/
def pureEnv : Env := fun _ _ _ => []

/-- Run one handler invocation's effect on the state. -/
def runHandler (env : Env) (cb arg : Nat) (e : Event_t) (s : BusState) : BusState :=
  (env cb arg e).foldl (fun st a => applyAction a st) s

/-- One handler call as observed from outside: which callback, with which
context, for which record. -/
structure Invocation where
  cb : Nat
  arg : Nat
  ev : Event_t
deriving Repr, DecidableEq

/-- One iteration of `dispatch_event`'s subscriber loop: read slot `i` of the
event's row from the *current* state, and invoke it when used. -/
def subStep (env : Env) (e : Event_t)
    (acc : BusState × List Invocation) (i : Nat) : BusState × List Invocation :=
  let slot := (acc.1.subscribers.getD e.type []).getD i zeroSub
  if slot.used then
    (runHandler env slot.callback slot.arg e acc.1,
     acc.2 ++ [{ cb := slot.callback, arg := slot.arg, ev := e }])
  else acc

/-- One iteration of `dispatch_event`'s observer loop. -/
def obsStep (env : Env) (e : Event_t)
    (acc : BusState × List Invocation) (i : Nat) : BusState × List Invocation :=
  let slot := acc.1.observers.getD i zeroObs
  if slot.used then
    (runHandler env slot.callback slot.arg e acc.1,
     acc.2 ++ [{ cb := slot.callback, arg := slot.arg, ev := e }])
  else acc

/-- `dispatch_event`: scan the event's subscriber row (slots `0..7`), then the
observer table (slots `0..3`), invoking each slot that is used *at the moment
the scan reaches it*.  Returns the post-state and the invocation trace. -/
def dispatch_event (env : Env) (e : Event_t) (s : BusState) :
    BusState × List Invocation :=
  (List.range EVENT_OBSERVER_MAX).foldl (obsStep env e)
    ((List.range EVENT_SUBSCRIBER_MAX).foldl (subStep env e) (s, []))

/-- What one `EVENT_Process` call did: records drained (the C return value),
final state, the popped records in pop order, and the handler-call trace. -/
structure ProcOut where
  drained : Nat
  state : BusState
  popped : List Event_t
  trace : List Invocation
deriving Repr, DecidableEq

/-- The `while (!queue_is_empty())` drain loop of `EVENT_Process`, with
explicit fuel.  Handlers' actions never push or pop (the action language has
no publish), so fuel equal to the entry `count` makes this the exact loop. -/
def processLoop (env : Env) : Nat → BusState → List Event_t → List Invocation →
    Nat → ProcOut
  | 0, s, popped, tr, n => { drained := n, state := s, popped := popped, trace := tr }
  | fuel + 1, s, popped, tr, n =>
    match queue_pop s.queue with
    | none => { drained := n, state := s, popped := popped, trace := tr }
    | some (e, q') =>
      let r := dispatch_event env e { s with queue := q' }
      processLoop env fuel r.1 (popped ++ [e]) (tr ++ r.2) (n + 1)

/-- `EVENT_Process`: returns 0 untouched when not initialized, otherwise
drains the queue, dispatching each popped record, and returns the number of
records drained. -/
def EVENT_Process (env : Env) (s : BusState) : ProcOut :=
  if !s.initialized then { drained := 0, state := s, popped := [], trace := [] }
  else processLoop env s.queue.count s [] [] 0

/-- Arguments of one `EVENT_Publish` call (the clock sample included). -/
structure PubArgs where
  type : Nat
  prio : Nat
  data : Option (List Nat)
  data_size : Nat
  now : Nat
deriving Repr, DecidableEq

/-- The record a given publish call constructs. -/
def mkEventOf (p : PubArgs) : Event_t :=
  mkEvent p.type p.prio p.data p.data_size p.now

/-- A sequence of publish calls with no intervening operation; returns the
final state and each call's result in order. -/
def publishAll : List PubArgs → BusState → BusState × List (Except EventErr Unit)
  | [], s => (s, [])
  | p :: ps, s =>
    let r := EVENT_Publish p.type p.prio p.data p.data_size p.now s
    let rest := publishAll ps r.2
    (rest.1, r.1 :: rest.2)

/-- The structural well-formedness of the circular buffer: bounded count,
in-range indices, full-length storage, and `tail` one past the live region
that starts at `head` and spans `count` slots mod capacity. -/
def QueueWF (q : EventQueue_t) : Prop :=
  q.count ≤ EVENT_QUEUE_SIZE ∧ q.head < EVENT_QUEUE_SIZE ∧
  q.tail < EVENT_QUEUE_SIZE ∧ q.tail = (q.head + q.count) % EVENT_QUEUE_SIZE ∧
  q.queue.length = EVENT_QUEUE_SIZE

instance (q : EventQueue_t) : Decidable (QueueWF q) := by
  unfold QueueWF; infer_instance

/-- The live records of the queue, oldest first: `count` slots starting at
`head`, mod capacity. -/
def queueToList (q : EventQueue_t) : List Event_t :=
  (List.range q.count).map (fun i => q.queue.getD ((q.head + i) % EVENT_QUEUE_SIZE) zeroEvent)

end EventSys

namespace EventSys

/-! ### Generic helpers -/

/-- An invariant preserved by every step is preserved by the fold. -/
theorem foldl_preserve {α β : Type} (P : α → Prop) (f : α → β → α)
    (h : ∀ a b, P a → P (f a b)) : ∀ (l : List β) (a : α), P a → P (l.foldl f a) := by
  intro l
  induction l with
  | nil => intro a ha; exact ha
  | cons x xs ih => intro a ha; exact ih (f a x) (h a x ha)

/-! ### Registry actions never touch queue or flag -/

theorem EVENT_Subscribe_queue (t cb arg : Nat) (s : BusState) :
    (EVENT_Subscribe t cb arg s).2.queue = s.queue := by
  simp only [EVENT_Subscribe]
  repeat' split
  all_goals rfl

theorem EVENT_Subscribe_initialized (t cb arg : Nat) (s : BusState) :
    (EVENT_Subscribe t cb arg s).2.initialized = s.initialized := by
  simp only [EVENT_Subscribe]
  repeat' split
  all_goals rfl

theorem EVENT_Unsubscribe_queue (t cb arg : Nat) (s : BusState) :
    (EVENT_Unsubscribe t cb arg s).2.queue = s.queue := by
  simp only [EVENT_Unsubscribe]
  repeat' split
  all_goals rfl

theorem EVENT_Unsubscribe_initialized (t cb arg : Nat) (s : BusState) :
    (EVENT_Unsubscribe t cb arg s).2.initialized = s.initialized := by
  simp only [EVENT_Unsubscribe]
  repeat' split
  all_goals rfl

theorem EVENT_RegisterObserver_queue (cb arg : Nat) (s : BusState) :
    (EVENT_RegisterObserver cb arg s).2.queue = s.queue := by
  simp only [EVENT_RegisterObserver]
  repeat' split
  all_goals rfl

theorem EVENT_RegisterObserver_initialized (cb arg : Nat) (s : BusState) :
    (EVENT_RegisterObserver cb arg s).2.initialized = s.initialized := by
  simp only [EVENT_RegisterObserver]
  repeat' split
  all_goals rfl

theorem EVENT_UnregisterObserver_queue (cb : Nat) (s : BusState) :
    (EVENT_UnregisterObserver cb s).2.queue = s.queue := by
  simp only [EVENT_UnregisterObserver]
  repeat' split
  all_goals rfl

theorem EVENT_UnregisterObserver_initialized (cb : Nat) (s : BusState) :
    (EVENT_UnregisterObserver cb s).2.initialized = s.initialized := by
  simp only [EVENT_UnregisterObserver]
  repeat' split
  all_goals rfl

theorem applyAction_queue (a : BusAction) (s : BusState) :
    (applyAction a s).queue = s.queue := by
  cases a with
  | subscribe t cb arg => exact EVENT_Subscribe_queue t cb arg s
  | unsubscribe t cb arg => exact EVENT_Unsubscribe_queue t cb arg s
  | regObserver cb arg => exact EVENT_RegisterObserver_queue cb arg s
  | unregObserver cb => exact EVENT_UnregisterObserver_queue cb s

theorem applyAction_initialized (a : BusAction) (s : BusState) :
    (applyAction a s).initialized = s.initialized := by
  cases a with
  | subscribe t cb arg => exact EVENT_Subscribe_initialized t cb arg s
  | unsubscribe t cb arg => exact EVENT_Unsubscribe_initialized t cb arg s
  | regObserver cb arg => exact EVENT_RegisterObserver_initialized cb arg s
  | unregObserver cb => exact EVENT_UnregisterObserver_initialized cb s

theorem runHandler_queue (env : Env) (cb arg : Nat) (e : Event_t) (s : BusState) :
    (runHandler env cb arg e s).queue = s.queue := by
  have hstep : ∀ (st : BusState) (a : BusAction),
      st.queue = s.queue → (applyAction a st).queue = s.queue := by
    intro st a h
    rw [applyAction_queue]
    exact h
  exact foldl_preserve (fun st => st.queue = s.queue) _ hstep (env cb arg e) s rfl

theorem runHandler_initialized (env : Env) (cb arg : Nat) (e : Event_t)
    (s : BusState) : (runHandler env cb arg e s).initialized = s.initialized := by
  have hstep : ∀ (st : BusState) (a : BusAction),
      st.initialized = s.initialized →
      (applyAction a st).initialized = s.initialized := by
    intro st a h
    rw [applyAction_initialized]
    exact h
  exact foldl_preserve (fun st => st.initialized = s.initialized) _ hstep
    (env cb arg e) s rfl

theorem dispatch_event_queue (env : Env) (e : Event_t) (s : BusState) :
    (dispatch_event env e s).1.queue = s.queue := by
  unfold dispatch_event
  have hobs : ∀ (acc : BusState × List Invocation) (i : Nat),
      acc.1.queue = s.queue → (obsStep env e acc i).1.queue = s.queue := by
    intro acc i h
    simp only [obsStep]
    split
    · simpa [runHandler_queue] using h
    · exact h
  have hsub : ∀ (acc : BusState × List Invocation) (i : Nat),
      acc.1.queue = s.queue → (subStep env e acc i).1.queue = s.queue := by
    intro acc i h
    simp only [subStep]
    split
    · simpa [runHandler_queue] using h
    · exact h
  exact foldl_preserve (fun (acc : BusState × List Invocation) => acc.1.queue = s.queue) _ hobs _ _
    (foldl_preserve (fun (acc : BusState × List Invocation) => acc.1.queue = s.queue) _ hsub _ _ rfl)

theorem dispatch_event_initialized (env : Env) (e : Event_t) (s : BusState) :
    (dispatch_event env e s).1.initialized = s.initialized := by
  unfold dispatch_event
  have hobs : ∀ (acc : BusState × List Invocation) (i : Nat),
      acc.1.initialized = s.initialized →
      (obsStep env e acc i).1.initialized = s.initialized := by
    intro acc i h
    simp only [obsStep]
    split
    · simpa [runHandler_initialized] using h
    · exact h
  have hsub : ∀ (acc : BusState × List Invocation) (i : Nat),
      acc.1.initialized = s.initialized →
      (subStep env e acc i).1.initialized = s.initialized := by
    intro acc i h
    simp only [subStep]
    split
    · simpa [runHandler_initialized] using h
    · exact h
  exact foldl_preserve (fun (acc : BusState × List Invocation) => acc.1.initialized = s.initialized) _ hobs _ _
    (foldl_preserve (fun (acc : BusState × List Invocation) => acc.1.initialized = s.initialized) _ hsub _ _ rfl)

/-! ### Circular-buffer lemmas -/

theorem getD_set_ne {α : Type} (l : List α) (i j : Nat) (x d : α) (h : i ≠ j) :
    (l.set i x).getD j d = l.getD j d := by
  rw [List.getD_eq_getD_get?, List.getD_eq_getD_get?, List.get?_set_ne x l h]

theorem getD_set_self {α : Type} (l : List α) (i : Nat) (x d : α)
    (h : i < l.length) : (l.set i x).getD i d = x := by
  rw [List.getD_eq_getD_get?, List.get?_set_eq_of_lt x h]
  rfl

theorem queueToList_length (q : EventQueue_t) :
    (queueToList q).length = q.count := by
  simp [queueToList]

theorem queueToList_nil (q : EventQueue_t) (h : q.count = 0) :
    queueToList q = [] := by
  simp [queueToList, h]

theorem queue_push_spec (e : Event_t) (q q' : EventQueue_t) (hwf : QueueWF q)
    (h : queue_push e q = some q') :
    queueToList q' = queueToList q ++ [e] ∧ QueueWF q' ∧
    q'.count = q.count + 1 := by
  have h64 : EVENT_QUEUE_SIZE = 64 := rfl
  obtain ⟨hc, hh, ht, htl, hlen⟩ := hwf
  unfold queue_push at h
  split at h
  · exact absurd h (by simp)
  · rename_i hlt
    have hq : q' = { queue := q.queue.set q.tail e, head := q.head,
                     tail := (q.tail + 1) % EVENT_QUEUE_SIZE, count := q.count + 1 } :=
      (Option.some.inj h).symm
    subst hq
    refine ⟨?_, ⟨?_, ?_, ?_, ?_, ?_⟩, rfl⟩
    · unfold queueToList
      dsimp only
      rw [List.range_succ, List.map_append]
      congr 1
      · apply List.map_congr_left
        intro i hi
        rw [List.mem_range] at hi
        apply getD_set_ne
        rw [htl]
        rw [h64] at hc hh hlt ⊢
        omega
      · simp only [List.map]
        rw [← htl, getD_set_self]
        rw [hlen]
        exact ht
    · show q.count + 1 ≤ EVENT_QUEUE_SIZE
      rw [h64] at hlt ⊢
      omega
    · exact hh
    · show (q.tail + 1) % EVENT_QUEUE_SIZE < EVENT_QUEUE_SIZE
      rw [h64]
      omega
    · show (q.tail + 1) % EVENT_QUEUE_SIZE = (q.head + (q.count + 1)) % EVENT_QUEUE_SIZE
      rw [htl]
      rw [h64]
      omega
    · show (q.queue.set q.tail e).length = EVENT_QUEUE_SIZE
      rw [List.length_set]
      exact hlen

theorem queue_pop_spec (q : EventQueue_t) (hwf : QueueWF q) (h : 0 < q.count) :
    queue_pop q = some (q.queue.getD q.head zeroEvent,
      { q with head := (q.head + 1) % EVENT_QUEUE_SIZE, count := q.count - 1 }) ∧
    queueToList q = q.queue.getD q.head zeroEvent ::
      queueToList { q with head := (q.head + 1) % EVENT_QUEUE_SIZE,
                           count := q.count - 1 } ∧
    QueueWF { q with head := (q.head + 1) % EVENT_QUEUE_SIZE,
                     count := q.count - 1 } := by
  have h64 : EVENT_QUEUE_SIZE = 64 := rfl
  obtain ⟨hc, hh, ht, htl, hlen⟩ := hwf
  refine ⟨?_, ?_, ?_, ?_, ?_, ?_, ?_⟩
  · unfold queue_pop
    rw [if_neg (by omega)]
  · unfold queueToList
    dsimp only
    have hsplit : q.count = (q.count - 1) + 1 := by omega
    rw [hsplit, List.range_succ_eq_map, List.map_cons, List.map_map]
    congr 1
    · rw [Nat.add_zero, Nat.mod_eq_of_lt hh]
    · apply List.map_congr_left
      intro i hi
      rw [List.mem_range] at hi
      have : (q.head + Nat.succ i) % EVENT_QUEUE_SIZE =
          ((q.head + 1) % EVENT_QUEUE_SIZE + i) % EVENT_QUEUE_SIZE := by
        rw [h64]
        omega
      simp only [Function.comp_apply, this]
  · show q.count - 1 ≤ EVENT_QUEUE_SIZE
    omega
  · show (q.head + 1) % EVENT_QUEUE_SIZE < EVENT_QUEUE_SIZE
    rw [h64]
    omega
  · exact ht
  · show q.tail = ((q.head + 1) % EVENT_QUEUE_SIZE + (q.count - 1)) % EVENT_QUEUE_SIZE
    rw [htl]
    rw [h64] at hc hh ⊢
    omega
  · exact hlen

/-- The drain loop dispatches exactly the live queue contents, oldest first,
leaves the queue empty, counts the pops, and preserves the flag. -/
theorem processLoop_spec (env : Env) : ∀ (fuel : Nat) (s : BusState)
    (popped : List Event_t) (tr : List Invocation) (n : Nat),
    QueueWF s.queue → s.queue.count ≤ fuel →
    (processLoop env fuel s popped tr n).popped = popped ++ queueToList s.queue ∧
    (processLoop env fuel s popped tr n).state.queue.count = 0 ∧
    QueueWF (processLoop env fuel s popped tr n).state.queue ∧
    (processLoop env fuel s popped tr n).drained = n + s.queue.count ∧
    (processLoop env fuel s popped tr n).state.initialized = s.initialized := by
  intro fuel
  induction fuel with
  | zero =>
    intro s popped tr n hwf hfuel
    have hc : s.queue.count = 0 := by omega
    simp [processLoop, queueToList_nil _ hc, hc, hwf]
  | succ fuel ih =>
    intro s popped tr n hwf hfuel
    by_cases hc : s.queue.count = 0
    · have hpop : queue_pop s.queue = none := by
        unfold queue_pop
        rw [if_pos hc]
      simp [processLoop, hpop, queueToList_nil _ hc, hc, hwf]
    · have hpos : 0 < s.queue.count := Nat.pos_of_ne_zero hc
      obtain ⟨hpop, hlist, hwf'⟩ := queue_pop_spec s.queue hwf hpos
      simp only [processLoop, hpop]
      set e := s.queue.queue.getD s.queue.head zeroEvent with he
      set q' : EventQueue_t :=
        { s.queue with head := (s.queue.head + 1) % EVENT_QUEUE_SIZE,
                       count := s.queue.count - 1 } with hq'
      set s2 : BusState := { s with queue := q' } with hs2
      have hdq : (dispatch_event env e s2).1.queue = q' := by
        rw [dispatch_event_queue]
      have hdi : (dispatch_event env e s2).1.initialized = s.initialized := by
        rw [dispatch_event_initialized]
      have hwfd : QueueWF (dispatch_event env e s2).1.queue := by
        rw [hdq]
        exact hwf'
      have hfd : (dispatch_event env e s2).1.queue.count ≤ fuel := by
        rw [hdq]
        show s.queue.count - 1 ≤ fuel
        omega
      obtain ⟨ih1, ih2, ih3, ih4, ih5⟩ :=
        ih (dispatch_event env e s2).1 (popped ++ [e]) (tr ++ (dispatch_event env e s2).2) (n + 1) hwfd hfd
      refine ⟨?_, ih2, ih3, ?_, ?_⟩
      · rw [ih1, hdq, hlist]
        simp
      · rw [ih4, hdq]
        show n + 1 + (s.queue.count - 1) = n + s.queue.count
        omega
      · rw [ih5, hdi]

/-! ### Publish characterization -/

/-- A successful publish appends exactly the constructed record to the live
queue, preserves well-formedness, and touches nothing else. -/
theorem EVENT_Publish_ok_spec (ty pr : Nat) (d : Option (List Nat))
    (ds now : Nat) (s s' : BusState) (hwf : QueueWF s.queue)
    (h : EVENT_Publish ty pr d ds now s = (.ok (), s')) :
    queueToList s'.queue = queueToList s.queue ++ [mkEvent ty pr d ds now] ∧
    QueueWF s'.queue ∧ s'.queue.count = s.queue.count + 1 ∧
    s'.subscribers = s.subscribers ∧ s'.observers = s.observers ∧
    s'.initialized = s.initialized := by
  simp only [EVENT_Publish] at h
  split at h
  · exact absurd h (by simp)
  · split at h
    · exact absurd h (by simp)
    · split at h
      · exact absurd h (by simp)
      · split at h
        · exact absurd h (by simp)
        · rename_i q' hpush
          have hs' : s' = { s with queue := q' } := by
            have := congrArg Prod.snd h
            exact this.symm
          subst hs'
          obtain ⟨h1, h2, h3⟩ := queue_push_spec _ _ _ hwf hpush
          exact ⟨h1, h2, h3, rfl, rfl, rfl⟩

/-- Publish succeeds when the bus is initialized, the type is valid, the
payload passes the size check and the queue has room. -/
theorem EVENT_Publish_succeeds (ty pr : Nat) (d : Option (List Nat))
    (ds now : Nat) (s : BusState) (hinit : s.initialized = true)
    (ht : ty < EVENT_MAX_COUNT)
    (hd : d.isSome = true → ds % 2 ^ 8 ≤ EVENT_DATA_SIZE_MAX)
    (hcap : s.queue.count < EVENT_QUEUE_SIZE) :
    (EVENT_Publish ty pr d ds now s).1 = .ok () := by
  have h32 : EVENT_MAX_COUNT = 32 := rfl
  have hmod : ty % 2 ^ 16 = ty := Nat.mod_eq_of_lt (by rw [h32] at ht; omega)
  have hpush : queue_push (mkEvent ty pr d ds now) s.queue =
      some { queue := s.queue.queue.set s.queue.tail (mkEvent ty pr d ds now)
             head := s.queue.head
             tail := (s.queue.tail + 1) % EVENT_QUEUE_SIZE
             count := s.queue.count + 1 } := by
    unfold queue_push
    rw [if_neg (by omega)]
  simp only [EVENT_Publish, hmod, hinit, Bool.not_true, Bool.false_eq_true,
    if_false, hpush]
  rw [if_neg (by omega)]
  split
  · rename_i hbig
    rw [Bool.and_eq_true, decide_eq_true_eq] at hbig
    have := hd hbig.1
    omega
  · rfl

/-- Publish on a full queue (all checks passing) fails with `QueueFull` and
changes nothing. -/
theorem EVENT_Publish_full (ty pr : Nat) (d : Option (List Nat))
    (ds now : Nat) (s : BusState) (hinit : s.initialized = true)
    (ht : ty < EVENT_MAX_COUNT)
    (hd : d.isSome = true → ds % 2 ^ 8 ≤ EVENT_DATA_SIZE_MAX)
    (hfull : s.queue.count = EVENT_QUEUE_SIZE) :
    EVENT_Publish ty pr d ds now s = (.error .queueFull, s) := by
  have h32 : EVENT_MAX_COUNT = 32 := rfl
  have hmod : ty % 2 ^ 16 = ty := Nat.mod_eq_of_lt (by rw [h32] at ht; omega)
  have hpush : queue_push (mkEvent ty pr d ds now) s.queue = none := by
    unfold queue_push
    rw [if_pos (by omega)]
  simp only [EVENT_Publish, hmod, hinit, Bool.not_true, Bool.false_eq_true,
    if_false, hpush]
  rw [if_neg (by omega)]
  split
  · rename_i hbig
    rw [Bool.and_eq_true, decide_eq_true_eq] at hbig
    have := hd hbig.1
    omega
  · rfl

/-! ### Error atomicity: each operation either succeeds or returns the state
unchanged -/

theorem EVENT_Subscribe_ok_or_id (t cb a : Nat) (s : BusState) :
    (EVENT_Subscribe t cb a s).1 = .ok () ∨ (EVENT_Subscribe t cb a s).2 = s := by
  simp only [EVENT_Subscribe]
  repeat' split
  all_goals simp

theorem EVENT_Unsubscribe_ok_or_id (t cb a : Nat) (s : BusState) :
    (EVENT_Unsubscribe t cb a s).1 = .ok () ∨ (EVENT_Unsubscribe t cb a s).2 = s := by
  simp only [EVENT_Unsubscribe]
  repeat' split
  all_goals simp

theorem EVENT_Publish_ok_or_id (ty pr : Nat) (d : Option (List Nat))
    (ds now : Nat) (s : BusState) :
    (EVENT_Publish ty pr d ds now s).1 = .ok () ∨
    (EVENT_Publish ty pr d ds now s).2 = s := by
  simp only [EVENT_Publish]
  repeat' split
  all_goals simp

theorem EVENT_RegisterObserver_ok_or_id (cb a : Nat) (s : BusState) :
    (EVENT_RegisterObserver cb a s).1 = .ok () ∨
    (EVENT_RegisterObserver cb a s).2 = s := by
  simp only [EVENT_RegisterObserver]
  repeat' split
  all_goals simp

theorem EVENT_UnregisterObserver_ok_or_id (cb : Nat) (s : BusState) :
    (EVENT_UnregisterObserver cb s).1 = .ok () ∨
    (EVENT_UnregisterObserver cb s).2 = s := by
  simp only [EVENT_UnregisterObserver]
  repeat' split
  all_goals simp

/-! ### The registry scan -/

theorem scanIdx_none {α : Type} (p : α → Bool) (l : List α)
    (h : ∀ x ∈ l, p x = false) : scanIdx p l = none := by
  induction l with
  | nil => rfl
  | cons x xs ih =>
    simp only [scanIdx]
    rw [h x (List.mem_cons_self x xs)]
    simp only [Bool.false_eq_true, if_false,
      ih (fun y hy => h y (List.mem_cons_of_mem x hy)), Option.map_none']

/-- A list with exactly one match: the scan finds an index, and clearing that
slot with a match-killing update leaves no match anywhere. -/
theorem scanIdx_unique_set {α : Type} (p : α → Bool) (upd : α → α) (d : α)
    (hupd : ∀ x, p (upd x) = false) :
    ∀ (l : List α), (l.filter p).length = 1 →
    ∃ i, scanIdx p l = some i ∧ i < l.length ∧
      ∀ x ∈ l.set i (upd (l.getD i d)), p x = false := by
  intro l
  induction l with
  | nil => intro h; simp [List.filter] at h
  | cons x xs ih =>
    intro h
    by_cases hx : p x = true
    · have hxs : ∀ y ∈ xs, p y = false := by
        have hnil : xs.filter p = [] := by
          rw [List.filter_cons, if_pos hx] at h
          simp only [List.length_cons] at h
          exact List.length_eq_zero.mp (by omega)
        intro y hy
        by_contra hpy
        have : y ∈ xs.filter p := List.mem_filter.mpr
          ⟨hy, by revert hpy; cases p y <;> simp⟩
        rw [hnil] at this
        exact absurd this (List.not_mem_nil y)
      refine ⟨0, by simp [scanIdx, hx], by simp, ?_⟩
      intro z hz
      simp only [List.getD_cons_zero, List.set_cons_zero] at hz
      rcases List.mem_cons.mp hz with h1 | h2
      · rw [h1]; exact hupd x
      · exact hxs z h2
    · have hx' : p x = false := by revert hx; cases p x <;> simp
      have hfl : (xs.filter p).length = 1 := by
        rw [List.filter_cons, if_neg (by rw [hx']; simp)] at h
        exact h
      obtain ⟨i, hscan, hlt, hall⟩ := ih hfl
      refine ⟨i + 1, by simp [scanIdx, hx', hscan], by simpa using hlt, ?_⟩
      intro z hz
      simp only [List.getD_cons_succ, List.set_cons_succ] at hz
      rcases List.mem_cons.mp hz with h1 | h2
      · rw [h1]; exact hx'
      · exact hall z h2

/-- Structural well-formedness of the registries: the table shapes the C
arrays have. -/
def RegWF (s : BusState) : Prop :=
  s.subscribers.length = EVENT_MAX_COUNT ∧
  (∀ row ∈ s.subscribers, row.length = EVENT_SUBSCRIBER_MAX) ∧
  s.observers.length = EVENT_OBSERVER_MAX

instance (s : BusState) : Decidable (RegWF s) := by
  unfold RegWF; infer_instance

/-- The matcher of `EVENT_Unsubscribe`'s scan. -/
def unsubMatch (cb a : Nat) (sl : Subscriber_t) : Bool :=
  sl.used && sl.callback == cb && sl.arg == a

/-- The row left by a successful unsubscribe hitting slot `i`. -/
def clearSlot (row : List Subscriber_t) (i : Nat) : List Subscriber_t :=
  row.set i { row.getD i zeroSub with used := false }

/-- Unsubscribing a pair registered in exactly one slot succeeds; repeating
the same call then fails with `NotFound` and leaves the state unchanged. -/
theorem unsubscribe_twice (s : BusState) (t cb a : Nat)
    (hinit : s.initialized = true) (ht : t < EVENT_MAX_COUNT) (hcb : cb ≠ 0)
    (hlen : s.subscribers.length = EVENT_MAX_COUNT)
    (hone : ((s.subscribers.getD t []).filter (unsubMatch cb a)).length = 1) :
    (EVENT_Unsubscribe t cb a s).1 = .ok () ∧
    EVENT_Unsubscribe t cb a (EVENT_Unsubscribe t cb a s).2 =
      (.error .notFound, (EVENT_Unsubscribe t cb a s).2) := by
  have h32 : EVENT_MAX_COUNT = 32 := rfl
  have hmod : t % 2 ^ 16 = t := Nat.mod_eq_of_lt (by rw [h32] at ht; omega)
  obtain ⟨i, hscan, hlt, hall⟩ := scanIdx_unique_set (unsubMatch cb a)
    (fun sl => { sl with used := false }) zeroSub
    (by intro x; simp [unsubMatch]) (s.subscribers.getD t []) hone
  have hrow : scanIdx (fun sl => sl.used && sl.callback == cb && sl.arg == a)
      (s.subscribers.getD t []) = some i := hscan
  have hfirst : EVENT_Unsubscribe t cb a s =
      (.ok (), { s with subscribers :=
          s.subscribers.set t (clearSlot (s.subscribers.getD t []) i) }) := by
    simp only [EVENT_Unsubscribe, hmod, hinit, Bool.not_true, Bool.false_eq_true,
      if_false]
    rw [if_neg (by omega), if_neg hcb, hrow]
    rfl
  rw [hfirst]
  refine ⟨rfl, ?_⟩
  have hgetD : (s.subscribers.set t
        (clearSlot (s.subscribers.getD t []) i)).getD t [] =
      clearSlot (s.subscribers.getD t []) i := by
    apply getD_set_self
    rw [hlen]
    exact ht
  have hnone : scanIdx (fun sl => sl.used && sl.callback == cb && sl.arg == a)
      (clearSlot (s.subscribers.getD t []) i) = none := by
    apply scanIdx_none
    intro x hx
    exact hall x hx
  simp only [EVENT_Unsubscribe, hmod, hinit, Bool.not_true, Bool.false_eq_true,
    if_false]
  rw [if_neg (by omega), if_neg hcb]
  simp only [hgetD, hnone]

/-- A run of publishes that all succeed appends exactly the constructed
records, in call order, to the live queue. -/
theorem publishAll_spec (ps : List PubArgs) : ∀ (s : BusState),
    s.initialized = true → QueueWF s.queue →
    (∀ r ∈ (publishAll ps s).2, r = .ok ()) →
    queueToList (publishAll ps s).1.queue =
      queueToList s.queue ++ ps.map mkEventOf ∧
    QueueWF (publishAll ps s).1.queue ∧
    (publishAll ps s).1.initialized = true ∧
    (publishAll ps s).1.queue.count = s.queue.count + ps.length := by
  induction ps with
  | nil =>
    intro s h1 h2 _
    simp [publishAll, h1, h2]
  | cons p ps ih =>
    intro s h1 hwf hok
    simp only [publishAll] at hok ⊢
    have hr : (EVENT_Publish p.type p.prio p.data p.data_size p.now s).1 = .ok () :=
      hok _ (List.mem_cons_self _ _)
    have hrest : ∀ r ∈ (publishAll ps
        (EVENT_Publish p.type p.prio p.data p.data_size p.now s).2).2,
        r = .ok () :=
      fun r hr' => hok r (List.mem_cons_of_mem _ hr')
    have hps : EVENT_Publish p.type p.prio p.data p.data_size p.now s =
        (.ok (), (EVENT_Publish p.type p.prio p.data p.data_size p.now s).2) := by
      rw [← hr]
    obtain ⟨e1, e2, e3, _, _, e6⟩ :=
      EVENT_Publish_ok_spec p.type p.prio p.data p.data_size p.now s _ hwf hps
    have h1' : (EVENT_Publish p.type p.prio p.data p.data_size p.now s).2.initialized
        = true := by rw [e6, h1]
    obtain ⟨i1, i2, i3, i4⟩ := ih _ h1' e2 hrest
    refine ⟨?_, i2, i3, ?_⟩
    · rw [i1, e1, List.map_cons, List.append_assoc]
      rfl
    · rw [i4, e3, List.length_cons]
      omega

/-! ### Dispatch with non-mutating handlers -/

theorem runHandler_pureEnv (cb a : Nat) (e : Event_t) (s : BusState) :
    runHandler pureEnv cb a e s = s := rfl

/-- With non-mutating handlers, the subscriber scan of the first `n` slots
invokes exactly the used slots among them, in slot order. -/
theorem subScan_pure (e : Event_t) (s : BusState) :
    ∀ (n : Nat), n ≤ (s.subscribers.getD e.type []).length →
    ∀ (tr : List Invocation),
    (List.range n).foldl (subStep pureEnv e) (s, tr) =
      (s, tr ++ (((s.subscribers.getD e.type []).take n).filter
          (fun sl => sl.used)).map
        (fun sl => { cb := sl.callback, arg := sl.arg, ev := e })) := by
  intro n
  induction n with
  | zero => intro _ tr; simp
  | succ n ih =>
    intro h tr
    have hn : n < (s.subscribers.getD e.type []).length := by omega
    rw [List.range_succ, List.foldl_append, ih (by omega) tr]
    simp only [List.foldl_cons, List.foldl_nil]
    have hgn : (s.subscribers.getD e.type [])[n]? =
        some ((s.subscribers.getD e.type []).getD n zeroSub) := by
      rw [List.getElem?_eq_getElem hn, List.getD_eq_getElem _ _ hn]
    rw [List.take_succ, hgn]
    simp only [subStep, runHandler_pureEnv, Option.toList_some,
      List.filter_append, List.map_append, List.append_assoc]
    split
    · rename_i hu
      simp only [List.filter_cons, hu, List.filter_nil, List.map_cons,
        List.map_nil]
      rfl
    · rename_i hu
      rw [List.filter_cons, if_neg hu]
      simp
  
/-- With non-mutating handlers, the observer scan of the first `n` slots
invokes exactly the used slots among them, in slot order. -/
theorem obsScan_pure (e : Event_t) (s : BusState) :
    ∀ (n : Nat), n ≤ s.observers.length →
    ∀ (tr : List Invocation),
    (List.range n).foldl (obsStep pureEnv e) (s, tr) =
      (s, tr ++ ((s.observers.take n).filter (fun ob => ob.used)).map
        (fun ob => { cb := ob.callback, arg := ob.arg, ev := e })) := by
  intro n
  induction n with
  | zero => intro _ tr; simp
  | succ n ih =>
    intro h tr
    have hn : n < s.observers.length := by omega
    rw [List.range_succ, List.foldl_append, ih (by omega) tr]
    simp only [List.foldl_cons, List.foldl_nil]
    have hgn : s.observers[n]? = some (s.observers.getD n zeroObs) := by
      rw [List.getElem?_eq_getElem hn, List.getD_eq_getElem _ _ hn]
    rw [List.take_succ, hgn]
    simp only [obsStep, runHandler_pureEnv, Option.toList_some,
      List.filter_append, List.map_append, List.append_assoc]
    split
    · rename_i hu
      simp only [List.filter_cons, hu, List.filter_nil, List.map_cons,
        List.map_nil]
      rfl
    · rename_i hu
      rw [List.filter_cons, if_neg hu]
      simp

/-- With non-mutating handlers a record's fan-out invokes exactly the used
subscriber slots of its type's row, in slot order, then the used observer
slots, in slot order, and leaves the state untouched. -/
theorem dispatch_event_pure (e : Event_t) (s : BusState)
    (hrow : (s.subscribers.getD e.type []).length = EVENT_SUBSCRIBER_MAX)
    (hobs : s.observers.length = EVENT_OBSERVER_MAX) :
    dispatch_event pureEnv e s =
      (s, ((s.subscribers.getD e.type []).filter (fun sl => sl.used)).map
          (fun sl => { cb := sl.callback, arg := sl.arg, ev := e }) ++
        (s.observers.filter (fun ob => ob.used)).map
          (fun ob => { cb := ob.callback, arg := ob.arg, ev := e })) := by
  unfold dispatch_event
  rw [← hrow, subScan_pure e s _ (Nat.le_refl _) [], List.take_length,
    List.nil_append, ← hobs, obsScan_pure e s _ (Nat.le_refl _) _,
    List.take_length]

/-- The all-zero state a C program starts in: zeroed queue, zeroed tables,
`g_initialized = 0` (static storage is zero-initialized). -/
def staticZeroBus : BusState :=
  { queue := queue_init
    subscribers := List.replicate EVENT_MAX_COUNT
      (List.replicate EVENT_SUBSCRIBER_MAX zeroSub)
    observers := List.replicate EVENT_OBSERVER_MAX zeroObs
    initialized := false }

/-- The state right after `EVENT_Init`. -/
def freshBus : BusState := (EVENT_Init staticZeroBus).2

/-! ### Claim theorems -/

/-- C7: Init is an idempotent hard reset: in any state it succeeds, empties
the queue, deactivates every subscriber and observer slot, and a following
`process()` returns 0 without invoking any handler; a second `init` gives
the same result as the first. -/
theorem C7_init_hard_reset (s : BusState) (env : Env) :
    (EVENT_Init s).1 = .ok () ∧
    (EVENT_Init s).2.initialized = true ∧
    (EVENT_Init s).2.queue.count = 0 ∧
    (∀ row ∈ (EVENT_Init s).2.subscribers, ∀ sl ∈ row, sl.used = false) ∧
    (∀ ob ∈ (EVENT_Init s).2.observers, ob.used = false) ∧
    EVENT_Init (EVENT_Init s).2 = EVENT_Init s ∧
    EVENT_Process env (EVENT_Init s).2 =
      { drained := 0, state := (EVENT_Init s).2, popped := [], trace := [] } := by
  refine ⟨rfl, rfl, rfl, ?_, ?_, rfl, rfl⟩
  · intro row hrow sl hsl
    simp only [EVENT_Init, List.mem_replicate] at hrow
    rw [hrow.2] at hsl
    simp only [List.mem_replicate] at hsl
    rw [hsl.2]
    rfl
  · intro ob hob
    simp only [EVENT_Init, List.mem_replicate] at hob
    rw [hob.2]
    rfl

/-- C9: before the first `init()` every operation is a rejection or no-op:
the five registering/publishing operations return `NotInitialized` leaving
the state untouched, `process()` returns 0 invoking nothing, `get_count` is a
pure read, and `clear_queue` rewrites the queue with the zero queue it
already is. -/
theorem C9_preinit_no_ops (s : BusState) (h : s.initialized = false) :
    (∀ t cb a, EVENT_Subscribe t cb a s = (.error .notInitialized, s)) ∧
    (∀ t cb a, EVENT_Unsubscribe t cb a s = (.error .notInitialized, s)) ∧
    (∀ ty pr d ds now, EVENT_Publish ty pr d ds now s = (.error .notInitialized, s)) ∧
    (∀ cb a, EVENT_RegisterObserver cb a s = (.error .notInitialized, s)) ∧
    (∀ cb, EVENT_UnregisterObserver cb s = (.error .notInitialized, s)) ∧
    (∀ env, EVENT_Process env s = { drained := 0, state := s, popped := [], trace := [] }) ∧
    EVENT_GetCount s = s.queue.count ∧
    (s.queue = queue_init → EVENT_ClearQueue s = (.ok (), s)) := by
  refine ⟨?_, ?_, ?_, ?_, ?_, ?_, rfl, ?_⟩
  · intro t cb a
    simp [EVENT_Subscribe, h]
  · intro t cb a
    simp [EVENT_Unsubscribe, h]
  · intro ty pr d ds now
    simp [EVENT_Publish, h]
  · intro cb a
    simp [EVENT_RegisterObserver, h]
  · intro cb
    simp [EVENT_UnregisterObserver, h]
  · intro env
    simp [EVENT_Process, h]
  · intro hq
    unfold EVENT_ClearQueue
    rw [← hq]

/-- C9 witness: the concrete pre-init state. -/
theorem C9_preinit_no_ops_witness :
    EVENT_Subscribe 1 2 3 staticZeroBus = (.error .notInitialized, staticZeroBus) ∧
    EVENT_Publish 1 0 none 0 0 staticZeroBus = (.error .notInitialized, staticZeroBus) ∧
    EVENT_Process pureEnv staticZeroBus =
      { drained := 0, state := staticZeroBus, popped := [], trace := [] } ∧
    EVENT_ClearQueue staticZeroBus = (.ok (), staticZeroBus) := by
  obtain ⟨h1, h2, h3, h4, h5, h6, h7, h8⟩ := C9_preinit_no_ops staticZeroBus rfl
  exact ⟨h1 1 2 3, h3 1 0 none 0 0, h6 pureEnv, h8 rfl⟩

/-- C6: a publish with a supplied payload of exactly `EVENT_DATA_SIZE_MAX`
bytes succeeds, one byte more fails with `PayloadTooLarge` changing nothing,
and the size check never fires for an absent payload, whose record always
carries `data_size = 0`. -/
theorem C6_payload_boundary (s : BusState) (ty pr now : Nat)
    (b32 b33 : List Nat) (hinit : s.initialized = true)
    (ht : ty < EVENT_MAX_COUNT) (hcap : s.queue.count < EVENT_QUEUE_SIZE)
    (hl32 : b32.length = EVENT_DATA_SIZE_MAX) :
    (EVENT_Publish ty pr (some b32) EVENT_DATA_SIZE_MAX now s).1 = .ok () ∧
    EVENT_Publish ty pr (some b33) (EVENT_DATA_SIZE_MAX + 1) now s =
      (.error .payloadTooLarge, s) ∧
    (∀ ds, (EVENT_Publish ty pr none ds now s).1 = .ok ()) ∧
    (∀ ds, (mkEvent ty pr none ds now).data_size = 0) := by
  have h32 : EVENT_MAX_COUNT = 32 := rfl
  have hmod : ty % 2 ^ 16 = ty := Nat.mod_eq_of_lt (by rw [h32] at ht; omega)
  refine ⟨?_, ?_, ?_, ?_⟩
  · exact EVENT_Publish_succeeds ty pr (some b32) EVENT_DATA_SIZE_MAX now s
      hinit ht (fun _ => by norm_num [EVENT_DATA_SIZE_MAX]) hcap
  · simp only [EVENT_Publish, hmod, hinit, Bool.not_true, Bool.false_eq_true,
      if_false]
    rw [if_neg (by omega), if_pos (by norm_num [EVENT_DATA_SIZE_MAX])]
  · intro ds
    exact EVENT_Publish_succeeds ty pr none ds now s hinit ht
      (fun hs => by simp at hs) hcap
  · intro ds
    rfl

/-- C6 witness. -/
theorem C6_payload_boundary_witness :
    (EVENT_Publish 2 0 (some (List.replicate 32 7)) EVENT_DATA_SIZE_MAX 0 freshBus).1
      = .ok () ∧
    EVENT_Publish 2 0 (some (List.replicate 33 7)) (EVENT_DATA_SIZE_MAX + 1) 0 freshBus
      = (.error .payloadTooLarge, freshBus) ∧
    (EVENT_Publish 2 0 none 5 0 freshBus).1 = .ok () ∧
    (mkEvent 2 0 none 5 0).data_size = 0 := by
  obtain ⟨h1, h2, h3, h4⟩ := C6_payload_boundary freshBus 2 0 0
    (List.replicate 32 7) (List.replicate 33 7) rfl (by decide) (by decide)
    (by decide)
  exact ⟨h1, h2, h3 5, h4 5⟩

/-- C1: FIFO dispatch order.  From an initialized bus with an empty queue,
any sequence of publish calls that all succeed, followed by one `process()`,
pops and dispatches exactly the published records in publish order — whatever
each record's priority, and whatever the handlers do to the registries. -/
theorem C1_fifo_order (env : Env) (s : BusState) (ps : List PubArgs)
    (hinit : s.initialized = true) (hwf : QueueWF s.queue)
    (hempty : s.queue.count = 0)
    (hok : ∀ r ∈ (publishAll ps s).2, r = .ok ()) :
    (EVENT_Process env (publishAll ps s).1).popped = ps.map mkEventOf ∧
    (EVENT_Process env (publishAll ps s).1).drained = ps.length := by
  obtain ⟨h1, h2, h3, h4⟩ := publishAll_spec ps s hinit hwf hok
  unfold EVENT_Process
  rw [h3]
  simp only [Bool.not_true, Bool.false_eq_true, if_false]
  obtain ⟨l1, l2, l3, l4, l5⟩ := processLoop_spec env
    ((publishAll ps s).1.queue.count) (publishAll ps s).1 [] [] 0 h2
    (Nat.le_refl _)
  constructor
  · rw [l1, h1, queueToList_nil _ hempty]
    simp
  · rw [l4, h4, hempty]
    simp

/-- C1 witness: three publishes with three different priorities, processed in
publish order. -/
theorem C1_fifo_order_witness :
    (∀ r ∈ (publishAll
        [⟨1, 2, none, 0, 10⟩, ⟨3, 0, some [9], 1, 11⟩, ⟨1, 1, none, 0, 12⟩]
        freshBus).2, r = .ok ()) ∧
    (EVENT_Process pureEnv (publishAll
        [⟨1, 2, none, 0, 10⟩, ⟨3, 0, some [9], 1, 11⟩, ⟨1, 1, none, 0, 12⟩]
        freshBus).1).popped =
      [mkEventOf ⟨1, 2, none, 0, 10⟩, mkEventOf ⟨3, 0, some [9], 1, 11⟩,
       mkEventOf ⟨1, 1, none, 0, 12⟩] ∧
    (EVENT_Process pureEnv (publishAll
        [⟨1, 2, none, 0, 10⟩, ⟨3, 0, some [9], 1, 11⟩, ⟨1, 1, none, 0, 12⟩]
        freshBus).1).drained = 3 := by
  refine ⟨by decide, ?_⟩
  obtain ⟨h1, h2⟩ := C1_fifo_order pureEnv freshBus
    [⟨1, 2, none, 0, 10⟩, ⟨3, 0, some [9], 1, 11⟩, ⟨1, 1, none, 0, 12⟩]
    rfl (by decide) rfl (by decide)
  exact ⟨h1, h2⟩

/-- The bus state after popping the head record (registries untouched). -/
def popState (s : BusState) : BusState :=
  { s with queue := { s.queue with head := (s.queue.head + 1) % EVENT_QUEUE_SIZE,
                                   count := s.queue.count - 1 } }

/-- Processing a single-record queue dispatches exactly that record once. -/
theorem process_one_trace (env : Env) (s : BusState)
    (hinit : s.initialized = true) (hwf : QueueWF s.queue)
    (hcount : s.queue.count = 1) :
    (EVENT_Process env s).trace =
      (dispatch_event env (s.queue.queue.getD s.queue.head zeroEvent)
        (popState s)).2 := by
  have hpos : 0 < s.queue.count := by omega
  obtain ⟨hpop, hlist, hwf'⟩ := queue_pop_spec s.queue hwf hpos
  unfold EVENT_Process
  rw [hinit]
  simp only [Bool.not_true, Bool.false_eq_true, if_false]
  have hfuel : processLoop env s.queue.count s [] [] 0 =
      processLoop env 1 s [] [] 0 := by rw [hcount]
  rw [hfuel]
  simp only [processLoop, hpop]
  rw [List.nil_append]
  unfold popState
  rfl

/-- C2: fan-out completeness and order.  Processing an initialized bus whose
queue holds exactly one record invokes, for that record, exactly the active
subscriber slots of the record's type in ascending slot order followed by the
active observer slots in ascending slot order — `k + m` calls in all, each
active slot once (stated for handlers that do not mutate the registries
during dispatch, cf. the live-scan behaviour settled with C4). -/
theorem C2_fanout_completeness (s : BusState)
    (hinit : s.initialized = true) (hwf : QueueWF s.queue)
    (hcount : s.queue.count = 1)
    (hrow : (s.subscribers.getD
        (s.queue.queue.getD s.queue.head zeroEvent).type []).length =
      EVENT_SUBSCRIBER_MAX)
    (hobs : s.observers.length = EVENT_OBSERVER_MAX) :
    (EVENT_Process pureEnv s).trace =
      ((s.subscribers.getD (s.queue.queue.getD s.queue.head zeroEvent).type
          []).filter (fun sl => sl.used)).map
        (fun sl => { cb := sl.callback, arg := sl.arg,
                     ev := s.queue.queue.getD s.queue.head zeroEvent }) ++
      (s.observers.filter (fun ob => ob.used)).map
        (fun ob => { cb := ob.callback, arg := ob.arg,
                     ev := s.queue.queue.getD s.queue.head zeroEvent }) ∧
    (EVENT_Process pureEnv s).trace.length =
      ((s.subscribers.getD (s.queue.queue.getD s.queue.head zeroEvent).type
          []).filter (fun sl => sl.used)).length +
      (s.observers.filter (fun ob => ob.used)).length := by
  rw [process_one_trace pureEnv s hinit hwf hcount]
  have hdisp := dispatch_event_pure (s.queue.queue.getD s.queue.head zeroEvent)
    (popState s) hrow hobs
  rw [hdisp]
  constructor
  · rfl
  · simp [popState, List.length_append]

/-- C2 witness: two subscribers on type 2, one observer, one queued record. -/
theorem C2_fanout_completeness_witness :
    (EVENT_Process pureEnv (EVENT_Publish 2 0 none 0 9
        (EVENT_RegisterObserver 30 0
          (EVENT_Subscribe 2 11 5 (EVENT_Subscribe 2 10 0 freshBus).2).2).2).2).trace =
      [{ cb := 10, arg := 0, ev := mkEvent 2 0 none 0 9 },
       { cb := 11, arg := 5, ev := mkEvent 2 0 none 0 9 },
       { cb := 30, arg := 0, ev := mkEvent 2 0 none 0 9 }] ∧
    (EVENT_Process pureEnv (EVENT_Publish 2 0 none 0 9
        (EVENT_RegisterObserver 30 0
          (EVENT_Subscribe 2 11 5 (EVENT_Subscribe 2 10 0 freshBus).2).2).2).2).trace.length
      = 2 + 1 := by
  obtain ⟨h1, h2⟩ := C2_fanout_completeness
    (EVENT_Publish 2 0 none 0 9
      (EVENT_RegisterObserver 30 0
        (EVENT_Subscribe 2 11 5 (EVENT_Subscribe 2 10 0 freshBus).2).2).2).2
    (by decide) (by decide) (by decide) (by decide) (by decide)
  constructor
  · rw [h1]
    decide
  · rw [h2]
    decide

/-- C5: payload round-trip.  Publishing a payload of `L` bytes
(`0 < L ≤ EVENT_DATA_SIZE_MAX`, byte-valued) on an initialized, empty-queue
bus succeeds, and processing dispatches exactly one record whose `data_size`
is `L` and whose first `L` payload bytes are the published bytes verbatim. -/
theorem C5_payload_round_trip (env : Env) (s : BusState) (ty pr now : Nat)
    (bytes : List Nat) (hinit : s.initialized = true) (hwf : QueueWF s.queue)
    (hempty : s.queue.count = 0) (ht : ty < EVENT_MAX_COUNT)
    (hpos : 0 < bytes.length) (hle : bytes.length ≤ EVENT_DATA_SIZE_MAX)
    (hbytes : ∀ b ∈ bytes, b < 2 ^ 8) :
    (EVENT_Publish ty pr (some bytes) bytes.length now s).1 = .ok () ∧
    (EVENT_Process env (EVENT_Publish ty pr (some bytes) bytes.length now s).2).popped
      = [mkEvent ty pr (some bytes) bytes.length now] ∧
    (mkEvent ty pr (some bytes) bytes.length now).data_size = bytes.length ∧
    (mkEvent ty pr (some bytes) bytes.length now).data.take bytes.length
      = bytes := by
  have h32max : EVENT_DATA_SIZE_MAX = 32 := rfl
  have hds : bytes.length % 2 ^ 8 = bytes.length :=
    Nat.mod_eq_of_lt (by rw [h32max] at hle; omega)
  have hmap : bytes.map (· % 2 ^ 8) = bytes := by
    conv_rhs => rw [← List.map_id bytes]
    exact List.map_congr_left (fun b hb => Nat.mod_eq_of_lt (hbytes b hb))
  have hok : (EVENT_Publish ty pr (some bytes) bytes.length now s).1 = .ok () :=
    EVENT_Publish_succeeds ty pr (some bytes) bytes.length now s hinit ht
      (fun _ => by rw [hds]; exact hle) (by rw [hempty]; decide)
  have hcond : ((some bytes).isSome && decide (0 < bytes.length)) = true := by
    simp [hpos]
  have hmk : mkEvent ty pr (some bytes) bytes.length now =
      { type := ty % 2 ^ 16, priority := pr % 2 ^ 8, timestamp := now % 2 ^ 32,
        data_size := bytes.length,
        data := bytes ++ List.replicate (EVENT_DATA_SIZE_MAX - bytes.length) 0 } := by
    simp only [mkEvent]
    rw [hds, hmap, hcond, if_pos hpos, List.take_length]
    simp
  refine ⟨hok, ?_, ?_, ?_⟩
  · have hps : EVENT_Publish ty pr (some bytes) bytes.length now s =
        (.ok (), (EVENT_Publish ty pr (some bytes) bytes.length now s).2) := by
      rw [← hok]
    obtain ⟨e1, e2, e3, _, _, e6⟩ := EVENT_Publish_ok_spec ty pr (some bytes)
      bytes.length now s _ hwf hps
    have hinit' : (EVENT_Publish ty pr (some bytes) bytes.length now s).2.initialized
        = true := by rw [e6, hinit]
    unfold EVENT_Process
    rw [hinit']
    simp only [Bool.not_true, Bool.false_eq_true, if_false]
    obtain ⟨l1, _, _, _, _⟩ := processLoop_spec env
      (EVENT_Publish ty pr (some bytes) bytes.length now s).2.queue.count
      (EVENT_Publish ty pr (some bytes) bytes.length now s).2 [] [] 0 e2
      (Nat.le_refl _)
    rw [l1, e1, queueToList_nil _ hempty]
    simp
  · rw [hmk]
  · rw [hmk]
    exact List.take_left' rfl

/-- C5 witness: the spec's own example, payload `[0x01, 0x68]` of length 2. -/
theorem C5_payload_round_trip_witness :
    (EVENT_Publish 2 1 (some [1, 104]) 2 7 freshBus).1 = .ok () ∧
    (EVENT_Process pureEnv (EVENT_Publish 2 1 (some [1, 104]) 2 7 freshBus).2).popped
      = [mkEvent 2 1 (some [1, 104]) 2 7] ∧
    (mkEvent 2 1 (some [1, 104]) 2 7).data_size = 2 ∧
    (mkEvent 2 1 (some [1, 104]) 2 7).data.take 2 = [1, 104] := by
  have h := C5_payload_round_trip pureEnv freshBus 2 1 7 [1, 104] rfl
    (by decide) rfl (by decide) (by decide) (by decide) (by decide)
  exact h

/-- C8: error atomicity.  Every operation that returns an error leaves the
state exactly as it was; and a (callback, context) pair registered in exactly
one slot of its type's row unsubscribes successfully once, after which the
identical call fails with `NotFound` and changes nothing. -/
theorem C8_error_atomicity (s : BusState) (t cb a : Nat)
    (hinit : s.initialized = true) (ht : t < EVENT_MAX_COUNT) (hcb : cb ≠ 0)
    (hlen : s.subscribers.length = EVENT_MAX_COUNT)
    (hone : ((s.subscribers.getD t []).filter (unsubMatch cb a)).length = 1) :
    (∀ (s' : BusState) (t' cb' a' : Nat) (e : EventErr),
      (EVENT_Subscribe t' cb' a' s').1 = .error e →
      (EVENT_Subscribe t' cb' a' s').2 = s') ∧
    (∀ (s' : BusState) (t' cb' a' : Nat) (e : EventErr),
      (EVENT_Unsubscribe t' cb' a' s').1 = .error e →
      (EVENT_Unsubscribe t' cb' a' s').2 = s') ∧
    (∀ (s' : BusState) (ty pr : Nat) (d : Option (List Nat)) (ds now : Nat)
      (e : EventErr),
      (EVENT_Publish ty pr d ds now s').1 = .error e →
      (EVENT_Publish ty pr d ds now s').2 = s') ∧
    (∀ (s' : BusState) (cb' a' : Nat) (e : EventErr),
      (EVENT_RegisterObserver cb' a' s').1 = .error e →
      (EVENT_RegisterObserver cb' a' s').2 = s') ∧
    (∀ (s' : BusState) (cb' : Nat) (e : EventErr),
      (EVENT_UnregisterObserver cb' s').1 = .error e →
      (EVENT_UnregisterObserver cb' s').2 = s') ∧
    (EVENT_Unsubscribe t cb a s).1 = .ok () ∧
    EVENT_Unsubscribe t cb a (EVENT_Unsubscribe t cb a s).2 =
      (.error .notFound, (EVENT_Unsubscribe t cb a s).2) := by
  obtain ⟨u1, u2⟩ := unsubscribe_twice s t cb a hinit ht hcb hlen hone
  refine ⟨?_, ?_, ?_, ?_, ?_, u1, u2⟩
  · intro s' t' cb' a' e he
    rcases EVENT_Subscribe_ok_or_id t' cb' a' s' with hok | hid
    · rw [hok] at he
      exact absurd he (by simp)
    · exact hid
  · intro s' t' cb' a' e he
    rcases EVENT_Unsubscribe_ok_or_id t' cb' a' s' with hok | hid
    · rw [hok] at he
      exact absurd he (by simp)
    · exact hid
  · intro s' ty pr d ds now e he
    rcases EVENT_Publish_ok_or_id ty pr d ds now s' with hok | hid
    · rw [hok] at he
      exact absurd he (by simp)
    · exact hid
  · intro s' cb' a' e he
    rcases EVENT_RegisterObserver_ok_or_id cb' a' s' with hok | hid
    · rw [hok] at he
      exact absurd he (by simp)
    · exact hid
  · intro s' cb' e he
    rcases EVENT_UnregisterObserver_ok_or_id cb' s' with hok | hid
    · rw [hok] at he
      exact absurd he (by simp)
    · exact hid

/-- C8 witness: one registered pair, two unsubscribes; plus a failing publish
that changes nothing. -/
theorem C8_error_atomicity_witness :
    (EVENT_Unsubscribe 2 10 0 (EVENT_Subscribe 2 10 0 freshBus).2).1 = .ok () ∧
    EVENT_Unsubscribe 2 10 0
        (EVENT_Unsubscribe 2 10 0 (EVENT_Subscribe 2 10 0 freshBus).2).2 =
      (.error .notFound,
        (EVENT_Unsubscribe 2 10 0 (EVENT_Subscribe 2 10 0 freshBus).2).2) ∧
    (EVENT_Publish 99 0 none 0 0 freshBus).2 = freshBus := by
  obtain ⟨h1, h2, h3, h4, h5, h6, h7⟩ := C8_error_atomicity
    (EVENT_Subscribe 2 10 0 freshBus).2 2 10 0 (by decide) (by decide)
    (by decide) (by decide) (by decide)
  exact ⟨h6, h7, h3 freshBus 99 0 none 0 0 .invalidType (by decide)⟩

/-- C10: every public operation preserves the queue's structural invariant:
`count ≤ QUEUE_CAPACITY`, `head < QUEUE_CAPACITY`, `tail < QUEUE_CAPACITY`,
full-length storage, and the live region of `count` records starting at
`head` mod capacity (the `tail` pointer one past it); `get_count` reads the
occupancy without mutating anything. -/
theorem C10_queue_invariant (env : Env) :
    (∀ s, QueueWF (EVENT_Init s).2.queue) ∧
    (∀ s t cb a, QueueWF s.queue → QueueWF (EVENT_Subscribe t cb a s).2.queue) ∧
    (∀ s t cb a, QueueWF s.queue → QueueWF (EVENT_Unsubscribe t cb a s).2.queue) ∧
    (∀ s ty pr d ds now, QueueWF s.queue →
      QueueWF (EVENT_Publish ty pr d ds now s).2.queue) ∧
    (∀ s, QueueWF s.queue → QueueWF (EVENT_Process env s).state.queue) ∧
    (∀ s, QueueWF (EVENT_ClearQueue s).2.queue) ∧
    (∀ s, EVENT_GetCount s = s.queue.count) ∧
    (∀ s cb a, QueueWF s.queue → QueueWF (EVENT_RegisterObserver cb a s).2.queue) ∧
    (∀ s cb, QueueWF s.queue → QueueWF (EVENT_UnregisterObserver cb s).2.queue) := by
  refine ⟨?_, ?_, ?_, ?_, ?_, ?_, ?_, ?_, ?_⟩
  · intro s
    show QueueWF queue_init
    decide
  · intro s t cb a h
    rw [EVENT_Subscribe_queue]
    exact h
  · intro s t cb a h
    rw [EVENT_Unsubscribe_queue]
    exact h
  · intro s ty pr d ds now h
    rcases EVENT_Publish_ok_or_id ty pr d ds now s with hok | hid
    · have hps : EVENT_Publish ty pr d ds now s =
          (.ok (), (EVENT_Publish ty pr d ds now s).2) := by rw [← hok]
      obtain ⟨_, h2, _, _, _, _⟩ := EVENT_Publish_ok_spec ty pr d ds now s _ h hps
      exact h2
    · rw [hid]
      exact h
  · intro s h
    unfold EVENT_Process
    split
    · exact h
    · obtain ⟨_, _, l3, _, _⟩ := processLoop_spec env s.queue.count s [] [] 0 h
        (Nat.le_refl _)
      exact l3
  · intro s
    show QueueWF queue_init
    decide
  · intro s
    rfl
  · intro s cb a h
    rw [EVENT_RegisterObserver_queue]
    exact h
  · intro s cb h
    rw [EVENT_UnregisterObserver_queue]
    exact h

/-- C10 witness. -/
theorem C10_queue_invariant_witness :
    QueueWF (EVENT_Publish 1 0 none 0 0 freshBus).2.queue ∧
    QueueWF (EVENT_Process pureEnv (EVENT_Publish 1 0 none 0 0 freshBus).2).state.queue := by
  obtain ⟨_, _, _, h4, h5, _, _, _, _⟩ := C10_queue_invariant pureEnv
  exact ⟨h4 freshBus 1 0 none 0 0 (by decide),
         h5 (EVENT_Publish 1 0 none 0 0 freshBus).2 (by decide)⟩

/-- C3: capacity enforcement.  From an initialized, empty-queue bus, after
exactly `EVENT_QUEUE_SIZE` publishes that all succeed, one more publish whose
arguments pass every earlier check fails with `QueueFull` and enqueues
nothing; a single `process()` then drains all `EVENT_QUEUE_SIZE` records
(at least one), after which a further such publish succeeds. -/
theorem C3_capacity (env : Env) (s : BusState) (ps : List PubArgs)
    (ty pr : Nat) (d : Option (List Nat)) (ds now : Nat)
    (hinit : s.initialized = true) (hwf : QueueWF s.queue)
    (hempty : s.queue.count = 0) (hn : ps.length = EVENT_QUEUE_SIZE)
    (hok : ∀ r ∈ (publishAll ps s).2, r = .ok ())
    (ht : ty < EVENT_MAX_COUNT)
    (hd : d.isSome = true → ds % 2 ^ 8 ≤ EVENT_DATA_SIZE_MAX) :
    EVENT_Publish ty pr d ds now (publishAll ps s).1 =
      (.error .queueFull, (publishAll ps s).1) ∧
    (EVENT_Process env (publishAll ps s).1).drained = EVENT_QUEUE_SIZE ∧
    (EVENT_Publish ty pr d ds now (EVENT_Process env (publishAll ps s).1).state).1
      = .ok () := by
  obtain ⟨h1, h2, h3, h4⟩ := publishAll_spec ps s hinit hwf hok
  have hfull : (publishAll ps s).1.queue.count = EVENT_QUEUE_SIZE := by
    rw [h4, hempty, hn, Nat.zero_add]
  refine ⟨?_, ?_, ?_⟩
  · exact EVENT_Publish_full ty pr d ds now (publishAll ps s).1 h3 ht hd hfull
  · unfold EVENT_Process
    rw [h3]
    simp only [Bool.not_true, Bool.false_eq_true, if_false]
    obtain ⟨_, _, _, l4, _⟩ := processLoop_spec env
      (publishAll ps s).1.queue.count (publishAll ps s).1 [] [] 0 h2
      (Nat.le_refl _)
    rw [l4, hfull, Nat.zero_add]
  · obtain ⟨l1, l2, l3, l4, l5⟩ := processLoop_spec env
      (publishAll ps s).1.queue.count (publishAll ps s).1 [] [] 0 h2
      (Nat.le_refl _)
    have hst : (EVENT_Process env (publishAll ps s).1).state =
        (processLoop env (publishAll ps s).1.queue.count (publishAll ps s).1
          [] [] 0).state := by
      unfold EVENT_Process
      rw [h3]
      simp only [Bool.not_true, Bool.false_eq_true, if_false]
    apply EVENT_Publish_succeeds
    · rw [hst, l5, h3]
    · exact ht
    · exact hd
    · rw [hst, l2]
      decide

/-- C3 witness: 64 successful publishes fill the queue; the 65th fails; a
drain re-opens capacity. -/
theorem C3_capacity_witness :
    (∀ r ∈ (publishAll (List.replicate 64 ⟨1, 0, none, 0, 0⟩) freshBus).2,
      r = .ok ()) ∧
    EVENT_Publish 1 0 none 0 0
        (publishAll (List.replicate 64 ⟨1, 0, none, 0, 0⟩) freshBus).1 =
      (.error .queueFull,
        (publishAll (List.replicate 64 ⟨1, 0, none, 0, 0⟩) freshBus).1) ∧
    (EVENT_Process pureEnv
        (publishAll (List.replicate 64 ⟨1, 0, none, 0, 0⟩) freshBus).1).drained
      = EVENT_QUEUE_SIZE ∧
    (EVENT_Publish 1 0 none 0 0
        (EVENT_Process pureEnv
          (publishAll (List.replicate 64 ⟨1, 0, none, 0, 0⟩) freshBus).1).state).1
      = .ok () := by
  have hok : ∀ r ∈ (publishAll (List.replicate 64 ⟨1, 0, none, 0, 0⟩) freshBus).2,
      r = .ok () := by decide
  obtain ⟨h1, h2, h3⟩ := C3_capacity pureEnv freshBus
    (List.replicate 64 ⟨1, 0, none, 0, 0⟩) 1 0 none 0 0 rfl (by decide) rfl
    (by decide) hok (by decide) (fun hs => by simp at hs)
  exact ⟨hok, h1, h2, h3⟩

/-- Modelled from the spec: the per-record dispatch as C4 describes it — the
registry is read once at the start of the record's fan-out ("snapshotted"),
so the handlers invoked for the record are exactly the slots active at that
moment, whatever the handlers do to the tables meanwhile. -/
def dispatchSnapshot (env : Env) (e : Event_t) (s : BusState) :
    BusState × List Invocation :=
  let subs := (s.subscribers.getD e.type []).filter (fun sl => sl.used)
  let obs := s.observers.filter (fun ob => ob.used)
  let s1 := subs.foldl (fun st sl => runHandler env sl.callback sl.arg e st) s
  let s2 := obs.foldl (fun st ob => runHandler env ob.callback ob.arg e st) s1
  (s2, subs.map (fun sl => { cb := sl.callback, arg := sl.arg, ev := e }) ++
    obs.map (fun ob => { cb := ob.callback, arg := ob.arg, ev := e }))

/-- A handler that, while running, subscribes callback 2 to type 0. -/
def c4Env : Env := fun cb _ _ =>
  if cb = 1 then [BusAction.subscribe 0 2 0] else []

/-- A bus with exactly one subscriber (callback 1) on type 0. -/
def c4State : BusState := (EVENT_Subscribe 0 1 0 freshBus).2

/-- A record of type 0. -/
def c4Event : Event_t := mkEvent 0 0 none 0 0

/-- C4 counterexample: the code scans the tables live, not snapshotted.
Exactly one subscriber (callback 1) is active when the fan-out starts, yet
its mid-dispatch subscribe lands callback 2 in the next free slot of the same
row and the in-flight record is dispatched to it too: two invocations where
the claimed snapshot semantics yields one. -/
theorem C4_counterexample :
    ((c4State.subscribers.getD c4Event.type []).filter
      (fun sl => sl.used)).length = 1 ∧
    (dispatch_event c4Env c4Event c4State).2 =
      [{ cb := 1, arg := 0, ev := c4Event }, { cb := 2, arg := 0, ev := c4Event }] ∧
    (dispatchSnapshot c4Env c4Event c4State).2 =
      [{ cb := 1, arg := 0, ev := c4Event }] ∧
    (dispatch_event c4Env c4Event c4State).2 ≠
      (dispatchSnapshot c4Env c4Event c4State).2 := by
  refine ⟨by decide, by decide, by decide, by decide⟩

/-- C4 amended: the dispatch scan reads the registries live, slot by slot, so
a registry modification made by a handler can change which handlers run for
the same in-flight record when it touches a slot the scan has not yet
reached, and it always affects subsequently popped records; only when the
handlers invoked for a record perform no registry operations does the
fan-out coincide with the snapshot reading of C4, invoking exactly the slots
active at the start and leaving the state unchanged. -/
theorem C4_live_scan_amended (env : Env) (e : Event_t) (s : BusState)
    (hpure : ∀ cb a ev, env cb a ev = [])
    (hrow : (s.subscribers.getD e.type []).length = EVENT_SUBSCRIBER_MAX)
    (hobs : s.observers.length = EVENT_OBSERVER_MAX) :
    dispatch_event env e s = dispatchSnapshot env e s ∧
    (dispatch_event env e s).1 = s := by
  have henv : env = pureEnv :=
    funext fun cb => funext fun a => funext fun ev => hpure cb a ev
  subst henv
  have hfold : ∀ (l : List Subscriber_t) (st : BusState),
      l.foldl (fun st sl => runHandler pureEnv sl.callback sl.arg e st) st = st := by
    intro l
    induction l with
    | nil => intro st; rfl
    | cons x xs ih => intro st; exact ih st
  have hfold' : ∀ (l : List Observer_t) (st : BusState),
      l.foldl (fun st ob => runHandler pureEnv ob.callback ob.arg e st) st = st := by
    intro l
    induction l with
    | nil => intro st; rfl
    | cons x xs ih => intro st; exact ih st
  have hsnap : dispatchSnapshot pureEnv e s =
      (s, ((s.subscribers.getD e.type []).filter (fun sl => sl.used)).map
          (fun sl => { cb := sl.callback, arg := sl.arg, ev := e }) ++
        (s.observers.filter (fun ob => ob.used)).map
          (fun ob => { cb := ob.callback, arg := ob.arg, ev := e })) := by
    simp only [dispatchSnapshot]
    rw [hfold, hfold']
  rw [dispatch_event_pure e s hrow hobs, hsnap]
  exact ⟨rfl, rfl⟩

/-- C4 amended witness. -/
theorem C4_live_scan_amended_witness :
    dispatch_event pureEnv c4Event c4State =
      dispatchSnapshot pureEnv c4Event c4State ∧
    (dispatch_event pureEnv c4Event c4State).1 = c4State := by
  exact C4_live_scan_amended pureEnv c4Event c4State (fun _ _ _ => rfl)
    (by decide) (by decide)

end EventSys
